import Mathlib

/-!
Verification of the dirman terminal file manager (Rust) against its
natural-language specification.  The definitions below are a shallow
embedding of the core state machine: the modal controller in
src/ui/app.rs, the filesystem abstraction in src/directory.rs, the text
input buffer in src/ui/user_input.rs, and the error type in
src/my_errors.rs.  Rust strings are embedded as Lean strings (or lists
of characters where byte/char indexing matters), `Vec` as `List`,
`Option`/`Result` as `Option`/`Except`.  A Rust panic (out-of-bounds
`Vec` indexing) is embedded as `Option.none` in the result of the
operation that would panic.  The real filesystem is embedded as an
explicit `Fs` value threaded through the operations that touch it.
-/

namespace Dirman

/-! ## UserInput — src/ui/user_input.rs

The Rust struct holds `input_value : String` and `input_index : usize`.
We embed the string as a list of characters.  `input_index` is kept
verbatim as a natural number: `UserInput::new` sets it to the UTF-8
byte length of the seed string, and `byte_index` interprets it as a
character count (`char_indices().nth(input_index)`), falling back to
the end of the string when it is past the last character.  Insertion
at the resulting byte offset is therefore insertion at character
position `min input_index (number of characters)`. -/

structure UserInput where
  input_value : List Char
  input_index : Nat
deriving Repr, DecidableEq

def UserInput.default : UserInput :=
  { input_value := [], input_index := 0 }

def UserInput.get_input_value (u : UserInput) : String :=
  String.mk u.input_value

/-- Embeds `UserInput::new(start_string)`: the value is the seed and the
index is the seed's byte length (`String::len` counts UTF-8 bytes). -/
def UserInput.new (start_string : String) : UserInput :=
  { input_value := start_string.data, input_index := start_string.utf8ByteSize }

/-- Embeds `byte_index` reinterpreted as a character position: the Rust
method returns the byte offset of character number `input_index`, or the
total byte length when `input_index` is past the end; inserting at that
byte offset inserts at character position `min input_index length`. -/
def UserInput.charPos (u : UserInput) : Nat :=
  min u.input_index u.input_value.length

/-- Embeds `enter_char`: `self.input_value.insert(self.byte_index(), new_char)`.
Note that the Rust code does not change `input_index` afterwards. -/
def UserInput.enter_char (u : UserInput) (new_char : Char) : UserInput :=
  { u with input_value :=
      u.input_value.take u.charPos ++ new_char :: u.input_value.drop u.charPos }

/-- Embeds `delete_char`: `if self.input_index != 0 { self.input_value.pop(); }`.
`String::pop` removes the last character (and is a no-op on an empty
string); `input_index` is not changed. -/
def UserInput.delete_char (u : UserInput) : UserInput :=
  if u.input_index ≠ 0 then { u with input_value := u.input_value.dropLast } else u

/-- Written from the words of section 4.3 of the spec, for comparison with
the source's `delete_char`: remove the character immediately before the
cursor when the cursor is not at position 0, no-op otherwise. -/
def UserInput.delete_char_spec (u : UserInput) : UserInput :=
  if u.input_index ≠ 0 then
    { input_value :=
        u.input_value.take (u.input_index - 1) ++ u.input_value.drop u.input_index,
      input_index := u.input_index - 1 }
  else u

/-! ## MyError — src/my_errors.rs -/

inductive MyError where
  | FileError (msg : String)
deriving Repr, DecidableEq

/-- Embeds the `Display` instance: `write!(f, "File Error: {}", msg)`. -/
def MyError.toString : MyError → String
  | .FileError msg => "File Error: " ++ msg

/-! ## Paths and the FileManager — src/directory.rs

`PathBuf` is embedded as the list of path segments of an absolute path
(the empty list is the filesystem root `/`).  An `OsSeg` carries the
segment's text together with a flag saying whether the segment is
representable as UTF-8 (`OsString::into_string` succeeds); segments the
program itself appends come from Rust `String`s and are always valid,
but the startup directory taken from the environment need not be. -/

structure OsSeg where
  text : String
  valid : Bool
deriving Repr, DecidableEq

/-- Joining one more segment onto a rendered absolute path. -/
def joinPath (p : String) (name : String) : String :=
  if p = "/" then p ++ name else p ++ "/" ++ name

/-- Rendering an absolute path: the root is "/", each segment is appended
with a separator. -/
def renderPath (segs : List OsSeg) : String :=
  segs.foldl (fun acc s => joinPath acc s.text) "/"

structure FileManager where
  curr_path : List OsSeg
deriving Repr, DecidableEq

/-- Embeds `next_path`: `self.curr_path.push(end_dir)`.  For a name that
is non-empty and free of path separators (as every name produced by a
directory listing is), `PathBuf::push` appends exactly one segment;
the pushed segment comes from a Rust `String`, hence is valid UTF-8. -/
def FileManager.next_path (fm : FileManager) (end_dir : String) : FileManager :=
  { curr_path := fm.curr_path ++ [{ text := end_dir, valid := true }] }

/-- Embeds `previous_path`: `self.curr_path.pop()`.  `PathBuf::pop`
removes the last segment and is a no-op at the root. -/
def FileManager.previous_path (fm : FileManager) : FileManager :=
  { curr_path := fm.curr_path.dropLast }

/-- Embeds `get_current_path`: `into_os_string().into_string()` succeeds
exactly when every segment is valid UTF-8; otherwise the method falls
back to a literal error string. -/
def FileManager.get_current_path (fm : FileManager) : String :=
  if fm.curr_path.all (fun s => s.valid) then renderPath fm.curr_path
  else "Error: Incorrect Path"

/-- Embeds `get_file_path`: joins `file_name` onto the current path and
converts to a `String`; the conversion fails exactly when the current
path contains a non-UTF-8 segment (the appended name is a `String`). -/
def FileManager.get_file_path (fm : FileManager) (file_name : String) :
    Except MyError String :=
  if fm.curr_path.all (fun s => s.valid) then
    .ok (renderPath (fm.curr_path ++ [{ text := file_name, valid := true }]))
  else
    .error (.FileError "Incorrect path")

/-! ## The filesystem model

An explicit value standing for the state of the real filesystem plus the
failure behaviour of the syscalls the program issues.  `entries` maps
existing absolute paths (rendered as strings) to their kind; the
`fail...` fields list the inputs on which the corresponding syscall
fails (permissions and other environmental errors).  Sizes are not
tracked: no behaviour of the core depends on them. -/

inductive FileTypeEnum where
  | File
  | Directory
  | Symlink
deriving Repr, DecidableEq

structure FileMetadata where
  file_name : String
  filetype : FileTypeEnum
  size : Nat
deriving Repr, DecidableEq

structure Fs where
  entries : List (String × FileTypeEnum)
  failRename : List (String × String × String)
  failDelete : List String
  failCreate : List String
  failRead : List String
deriving Repr, DecidableEq

def Fs.lookupKind (fs : Fs) (p : String) : Option FileTypeEnum :=
  (fs.entries.find? (fun e => e.1 == p)).map (fun e => e.2)

def Fs.pathExists (fs : Fs) (p : String) : Bool :=
  (fs.lookupKind p).isSome

/-- Result of `fs::read_dir` at a rendered path: fails when the path is
listed as unreadable or is not an existing directory; otherwise returns
the names of the immediate children. -/
def childNameOf (p child : String) : Option String :=
  let pre := if p = "/" then p else p ++ "/"
  if pre.data.isPrefixOf child.data then
    let rest := String.mk (child.data.drop pre.data.length)
    if rest ≠ "" ∧ rest.data.contains '/' = false then some rest else none
  else none

def Fs.readDir (fs : Fs) (p : String) : Except String (List String) :=
  if fs.failRead.contains p then .error "read failure"
  else if fs.lookupKind p = some .Directory then
    .ok (fs.entries.filterMap (fun e => childNameOf p e.1))
  else .error "Not a directory"

/-- Result of `fs::rename`: fails with the recorded cause on pairs in
`failRename`, fails when the source does not exist, and otherwise moves
the entry.  (Directory renames move only the entry itself in this model;
no claim depends on the relocation of a renamed directory's children.) -/
def Fs.renameOp (fs : Fs) (old new : String) : Except String Fs :=
  match fs.failRename.find? (fun t => t.1 == old && t.2.1 == new) with
  | some t => .error t.2.2
  | none =>
    if fs.pathExists old then
      .ok { fs with entries := fs.entries.map (fun e => if e.1 == old then (new, e.2) else e) }
    else .error "No such file or directory"

/-- Result of removing a path: `remove_file` (or `remove_dir_all`, which
also removes everything below the path). -/
def Fs.deleteOp (fs : Fs) (p : String) (kind : FileTypeEnum) : Except String Fs :=
  if fs.failDelete.contains p then .error "removal failure"
  else if fs.pathExists p then
    match kind with
    | .Directory =>
      .ok { fs with entries :=
        fs.entries.filter (fun e => !(e.1 == p || (p ++ "/").data.isPrefixOf e.1.data)) }
    | _ =>
      .ok { fs with entries := fs.entries.filter (fun e => !(e.1 == p)) }
  else .error "No such file or directory"

/-- Result of creating an empty file: fails on paths in `failCreate`
(covering permission errors and missing parents) and on existing paths. -/
def Fs.createOp (fs : Fs) (p : String) : Except String Fs :=
  if fs.failCreate.contains p ∨ fs.pathExists p then .error "creation failure"
  else .ok { fs with entries := fs.entries ++ [(p, .File)] }

/-- Embeds `dir_contents`: `fs::read_dir` on the current path, every
error collapsed to the one fixed message; names that are not valid UTF-8
are silently dropped by `file_filter` (in this model every listed name is
a valid string, so the filter keeps everything). -/
def FileManager.dir_contents (fm : FileManager) (fs : Fs) :
    Except MyError (List String) :=
  match fs.readDir (renderPath fm.curr_path) with
  | .error _ => .error (.FileError "Couldn't fetch directory entries")
  | .ok names => .ok names

/-- Embeds `get_metadata`: joins `file_name` onto the current path and
stats it; `None` when the stat fails.  The model tracks only UTF-8
representable paths, which covers every use made by the claims. -/
def FileManager.get_metadata (fm : FileManager) (fs : Fs) (file_name : String) :
    Option FileMetadata :=
  if fm.curr_path.all (fun s => s.valid) then
    match fs.lookupKind (renderPath (fm.curr_path ++ [{ text := file_name, valid := true }])) with
    | some k => some { file_name := file_name, filetype := k, size := 0 }
    | none => none
  else none

/-- Embeds `rename`: on an `fs::rename` error the method wraps the cause
as `FileError("Insufficient privilages: {e}")`; the filesystem is
unchanged on failure. -/
def FileManager.rename (_fm : FileManager) (fs : Fs) (file_path new_file_path : String) :
    Except MyError Unit × Fs :=
  match fs.renameOp file_path new_file_path with
  | .error e => (.error (.FileError ("Insufficient privilages: " ++ e)), fs)
  | .ok fs' => (.ok (), fs')

/-- Modelled from the spec: `FileManager::delete` is called by
`App::delete_file` in src/ui/app.rs but its definition is not among the
provided sources.  Section 4.2: removes a single file if the kind is
File or Symlink, removes the directory and its full contents if the kind
is Directory, and fails with a `FileError` on any underlying removal
error. -/
def FileManager.delete (_fm : FileManager) (fs : Fs) (file_path : String)
    (kind : FileTypeEnum) : Except MyError Unit × Fs :=
  match fs.deleteOp file_path kind with
  | .error e => (.error (.FileError e), fs)
  | .ok fs' => (.ok (), fs')

/-- Modelled from the spec: `FileManager::create` is called by
`App::create_file` in src/ui/app.rs but its definition is not among the
provided sources.  Section 4.2: creates an empty file at the path
(parent directories must already exist); fails with a `FileError`
otherwise. -/
def FileManager.create (_fm : FileManager) (fs : Fs) (file_path : String) :
    Except MyError Unit × Fs :=
  match fs.createOp file_path with
  | .error e => (.error (.FileError e), fs)
  | .ok fs' => (.ok (), fs')

/-! ## List selection state — ratatui ListState

The two selection panes wrap ratatui's `ListState`.  Modelled from the
library's documented behaviour: `select_next` selects the successor of
the current index (or index 0 when nothing is selected), `select_previous`
selects the saturating predecessor (or `usize::MAX` when nothing is
selected); neither knows the list length, so neither clamps.  Clamping
happens when the `List` widget is rendered: an empty list clears the
selection, and an out-of-range index is pulled back to the last item. -/

def usizeMax : Nat := 2 ^ 64 - 1

def listSelectNext (s : Option Nat) : Option Nat :=
  some (match s with
    | none => 0
    | some i => min (i + 1) usizeMax)

def listSelectPrev (s : Option Nat) : Option Nat :=
  some (match s with
    | none => usizeMax
    | some i => i - 1)

/-- The clamp the `List` widget's render applies to its `ListState`. -/
def clampSelection (items : List String) (s : Option Nat) : Option Nat :=
  if items.isEmpty then none
  else s.map (fun i => min i (items.length - 1))

/-! ## The application controller — src/ui/app.rs -/

structure ListPane where
  items : List String
  state : Option Nat
deriving Repr, DecidableEq

structure Bookmarked where
  full_path : String
  file_name : String
deriving Repr, DecidableEq

def Bookmarked.default : Bookmarked :=
  { full_path := "", file_name := "" }

inductive AppMode where
  | Exit
  | Files
  | Select
  | Rename
  | Delete
  | Create
  | Help
deriving Repr, DecidableEq

inductive FileAction where
  | Delete
  | Rename
  | Bookmark
deriving Repr, DecidableEq

/-- Embeds `FileAction`'s `FromStr` instance. -/
def parseFileAction (s : String) : Option FileAction :=
  if s = "Delete" then some .Delete
  else if s = "Rename" then some .Rename
  else if s = "Bookmark" then some .Bookmark
  else none

/-- Embeds `SelectList::default()`: the fixed action list rendered via
`Display` of the `FileAction` variants, no selection. -/
def selectListDefault : ListPane :=
  { items := ["Delete", "Rename", "Bookmark"], state := none }

structure App where
  dir : FileManager
  file_list : ListPane
  select_list : ListPane
  user_input : UserInput
  bookmarked : Bookmarked
  app_mode : AppMode
  error_msg : String
deriving Repr, DecidableEq

/-- The key codes the controller distinguishes. -/
inductive KeyCode where
  | char (c : Char)
  | up
  | down
  | enter
  | esc
  | backspace
  | other
deriving Repr, DecidableEq

/-- Embeds `App::default()`: the start directory comes from the process
environment (a parameter here), the listing falls back to the sentinel
entry on failure, and everything else is default-initialised. -/
def App.defaultApp (fs : Fs) (start_dir : List OsSeg) : App :=
  let dir : FileManager := { curr_path := start_dir }
  let items := match dir.dir_contents fs with
    | .ok contents => contents
    | .error _ => ["No such directory"]
  { dir := dir,
    file_list := { items := items, state := none },
    select_list := selectListDefault,
    user_input := UserInput.default,
    bookmarked := Bookmarked.default,
    app_mode := .Files,
    error_msg := "" }

def App.select_previous_file (app : App) : App :=
  { app with file_list := { app.file_list with state := listSelectPrev app.file_list.state } }

def App.select_next_file (app : App) : App :=
  { app with file_list := { app.file_list with state := listSelectNext app.file_list.state } }

def App.select_previous_action (app : App) : App :=
  { app with select_list := { app.select_list with state := listSelectPrev app.select_list.state } }

def App.select_next_action (app : App) : App :=
  { app with select_list := { app.select_list with state := listSelectNext app.select_list.state } }

/-- Embeds `move_into`; `none` is the panic on an out-of-range index. -/
def App.move_into (app : App) : Option App :=
  match app.file_list.state with
  | some i =>
    match app.file_list.items[i]? with
    | some folder => some { app with dir := app.dir.next_path folder }
    | none => none
  | none => some app

/-- Embeds `move_out`: pops the path, then refreshes the item list with
the sentinel fallback. -/
def App.move_out (fs : Fs) (app : App) : App :=
  let dir' := app.dir.previous_path
  let items := match dir'.dir_contents fs with
    | .ok contents => contents
    | .error _ => ["No such directory"]
  { app with dir := dir', file_list := { app.file_list with items := items } }

def App.enter_select_menu (app : App) : App :=
  { app with app_mode := .Select,
             select_list := { app.select_list with state := some 0 } }

def App.exit_select_menu (app : App) : App :=
  { app with app_mode := .Files,
             select_list := { app.select_list with state := none } }

/-- Embeds `select_menu` (Select + Enter dispatch); `none` is the panic
on an out-of-range index. -/
def App.select_menu (app : App) : Option App :=
  match app.file_list.state with
  | none => some app
  | some index =>
    match app.file_list.items[index]? with
    | none => none
    | some file_name =>
      match app.select_list.state with
      | none => some app
      | some aindex =>
        match app.select_list.items[aindex]? with
        | none => none
        | some label =>
          match parseFileAction label with
          | none => some app
          | some .Delete =>
            some { app with user_input := UserInput.default, app_mode := .Delete }
          | some .Rename =>
            some { app with user_input := UserInput.new file_name, app_mode := .Rename }
          | some .Bookmark =>
            match app.dir.get_file_path file_name with
            | .error e => some { app with error_msg := e.toString }
            | .ok file_path =>
              some { app with
                bookmarked := { full_path := file_path, file_name := file_name },
                app_mode := .Files }

/-- Embeds `delete_file`; `none` is the panic on an out-of-range index. -/
def App.delete_file (fs : Fs) (app : App) : Option (App × Fs) :=
  match app.file_list.state with
  | none => some (app, fs)
  | some index =>
    match app.file_list.items[index]? with
    | none => none
    | some file_name =>
      match app.dir.get_file_path file_name with
      | .error e => some ({ app with error_msg := e.toString }, fs)
      | .ok file_path =>
        match app.dir.get_metadata fs file_name with
        | none => some (app, fs)
        | some metadata =>
          match app.dir.delete fs file_path metadata.filetype with
          | (.ok _, fs') => some (app, fs')
          | (.error e, fs') => some ({ app with error_msg := e.toString }, fs')

/-- Embeds `rename_file`; `none` is the panic on an out-of-range index. -/
def App.rename_file (fs : Fs) (app : App) : Option (App × Fs) :=
  match app.file_list.state with
  | none => some (app, fs)
  | some index =>
    match app.file_list.items[index]? with
    | none => none
    | some file_name =>
      match app.dir.get_file_path file_name with
      | .error e => some ({ app with error_msg := e.toString }, fs)
      | .ok file_path =>
        match app.dir.get_file_path app.user_input.get_input_value with
        | .error e => some ({ app with error_msg := e.toString }, fs)
        | .ok new_file_path =>
          match app.dir.rename fs file_path new_file_path with
          | (.ok _, fs') => some (app, fs')
          | (.error e, fs') => some ({ app with error_msg := e.toString }, fs')

/-- Embeds `move_bookmarked`: a failed path resolution returns early
(before the line that clears the bookmark); a failed rename records the
error and still falls through to the unconditional clearing. -/
def App.move_bookmarked (fs : Fs) (app : App) : App × Fs :=
  match app.dir.get_file_path app.bookmarked.file_name with
  | .error e => ({ app with error_msg := e.toString }, fs)
  | .ok new_path =>
    match app.dir.rename fs app.bookmarked.full_path new_path with
    | (.ok _, fs') =>
      ({ app with bookmarked := Bookmarked.default }, fs')
    | (.error e, fs') =>
      ({ app with error_msg := e.toString, bookmarked := Bookmarked.default }, fs')

/-- Embeds `create_file`. -/
def App.create_file (fs : Fs) (app : App) : App × Fs :=
  match app.dir.get_file_path app.user_input.get_input_value with
  | .error e => ({ app with error_msg := e.toString }, fs)
  | .ok file_path =>
    match app.dir.create fs file_path with
    | (.ok _, fs') => (app, fs')
    | (.error e, fs') => ({ app with error_msg := e.toString }, fs')

/-- Embeds the `AppMode::Files` arm of the key match; the Rust char
patterns become equality tests on the character. -/
def App.filesKey (fs : Fs) (app : App) (code : KeyCode) : Option (App × Fs) :=
  match code with
  | .up => some (app.select_previous_file, fs)
  | .down => some (app.select_next_file, fs)
  | .char c =>
    if c = 'k' then some (app.select_previous_file, fs)
    else if c = 'j' then some (app.select_next_file, fs)
    else if c = 'a' then some ({ app with app_mode := .Create }, fs)
    else if c = 'm' then app.move_into.map (fun a => (a, fs))
    else if c = '-' then some (app.move_out fs, fs)
    else if c = 'b' then some (app.move_bookmarked fs)
    else some (app, fs)
  | .enter => some (app.enter_select_menu, fs)
  | _ => some (app, fs)

/-- Embeds the `AppMode::Select` arm of the key match. -/
def App.selectKey (fs : Fs) (app : App) (code : KeyCode) : Option (App × Fs) :=
  match code with
  | .up => some (app.select_previous_action, fs)
  | .down => some (app.select_next_action, fs)
  | .char c =>
    if c = 'k' then some (app.select_previous_action, fs)
    else if c = 'j' then some (app.select_next_action, fs)
    else some (app, fs)
  | .enter => app.select_menu.map (fun a => (a, fs))
  | .esc => some (app.exit_select_menu, fs)
  | _ => some (app, fs)

/-- Embeds the `AppMode::Rename` arm of the key match. -/
def App.renameKey (fs : Fs) (app : App) (code : KeyCode) : Option (App × Fs) :=
  match code with
  | .enter =>
    (app.rename_file fs).map (fun p => ({ p.1 with app_mode := .Files }, p.2))
  | .char c => some ({ app with user_input := app.user_input.enter_char c }, fs)
  | .backspace => some ({ app with user_input := app.user_input.delete_char }, fs)
  | .esc => some ({ app with app_mode := .Select }, fs)
  | _ => some (app, fs)

/-- Embeds the `AppMode::Delete` arm of the key match. -/
def App.deleteKey (fs : Fs) (app : App) (code : KeyCode) : Option (App × Fs) :=
  match code with
  | .enter =>
    (if app.user_input.get_input_value = "y"
      then app.delete_file fs
      else some (app, fs)).map
      (fun p => ({ p.1 with app_mode := .Files }, p.2))
  | .char c => some ({ app with user_input := app.user_input.enter_char c }, fs)
  | .backspace => some ({ app with user_input := app.user_input.delete_char }, fs)
  | .esc => some ({ app with app_mode := .Select }, fs)
  | _ => some (app, fs)

/-- Embeds the `AppMode::Help` arm of the key match. -/
def App.helpKey (fs : Fs) (app : App) (code : KeyCode) : Option (App × Fs) :=
  match code with
  | .esc => some ({ app with app_mode := .Files }, fs)
  | _ => some (app, fs)

/-- Embeds the `AppMode::Create` arm of the key match. -/
def App.createKey (fs : Fs) (app : App) (code : KeyCode) : Option (App × Fs) :=
  match code with
  | .enter =>
    some (((app.create_file fs).1, (app.create_file fs).2) |>
      (fun p => ({ p.1 with app_mode := .Files }, p.2)))
  | .char c => some ({ app with user_input := app.user_input.enter_char c }, fs)
  | .backspace => some ({ app with user_input := app.user_input.delete_char }, fs)
  | .esc => some ({ app with app_mode := .Select }, fs)
  | _ => some (app, fs)

/-- Embeds `handle_key_event`: the match on the raw key code puts the
`q` and `?` arms before the match on the current mode; `none` is a
panic inside one of the helpers. -/
def App.handle_key_event (fs : Fs) (app : App) (code : KeyCode) :
    Option (App × Fs) :=
  if code = .char 'q' then some ({ app with app_mode := .Exit }, fs)
  else if code = .char '?' then some ({ app with app_mode := .Help }, fs)
  else
    match app.app_mode with
    | .Files => App.filesKey fs app code
    | .Select => App.selectKey fs app code
    | .Rename => App.renameKey fs app code
    | .Delete => App.deleteKey fs app code
    | .Help => App.helpKey fs app code
    | .Create => App.createKey fs app code
    | .Exit => some (app, fs)

/-- Embeds the end-of-turn refresh in `App::run`: the file listing is
re-read unconditionally, with the sentinel fallback on failure. -/
def App.refreshItems (fs : Fs) (app : App) : App :=
  let items := match app.dir.dir_contents fs with
    | .ok contents => contents
    | .error _ => ["No such directory"]
  { app with file_list := { app.file_list with items := items } }

/-- Embeds the clamping the draw phase applies: the file list is always
rendered; the action list is rendered only in Select, Rename and Delete
modes (see the `Widget` implementation in src/ui/app.rs). -/
def App.drawClamp (app : App) : App :=
  let fl := { app.file_list with
    state := clampSelection app.file_list.items app.file_list.state }
  let sl :=
    if app.app_mode = .Select ∨ app.app_mode = .Rename ∨ app.app_mode = .Delete then
      { app.select_list with
        state := clampSelection app.select_list.items app.select_list.state }
    else app.select_list
  { app with file_list := fl, select_list := sl }

/-! ## Concrete instances used by witnesses and counterexamples -/

def fsHome : Fs :=
  { entries := [("/", .Directory), ("/home", .Directory),
      ("/home/a.txt", .File), ("/home/b", .Directory)],
    failRename := [], failDelete := [], failCreate := [], failRead := [] }

def fmHome : FileManager :=
  { curr_path := [{ text := "home", valid := true }] }

def appDelete : App :=
  { dir := fmHome,
    file_list := { items := ["a.txt", "b"], state := some 0 },
    select_list := selectListDefault,
    user_input := UserInput.new "y",
    bookmarked := Bookmarked.default,
    app_mode := .Delete,
    error_msg := "" }

def fsRenameFail : Fs :=
  { fsHome with failRename := [("/home/a.txt", "/home/z.txt", "permission denied")] }

def appRename : App :=
  { appDelete with app_mode := .Rename, user_input := UserInput.new "z.txt" }

def fmBadPath : FileManager :=
  { curr_path := [{ text := "home", valid := false }] }

def appBookmarkBad : App :=
  { appDelete with
    app_mode := .Files, dir := fmBadPath,
    user_input := UserInput.default,
    bookmarked := { full_path := "/old/x", file_name := "x" } }

def appBookmarkOk : App :=
  { appDelete with
    app_mode := .Files,
    user_input := UserInput.default,
    bookmarked := { full_path := "/gone/x", file_name := "x" } }

def appFilesOne : App :=
  { dir := fmHome,
    file_list := { items := ["a"], state := some 0 },
    select_list := selectListDefault,
    user_input := UserInput.default,
    bookmarked := Bookmarked.default,
    app_mode := .Files,
    error_msg := "" }

def appFilesEmpty : App :=
  { appFilesOne with file_list := { items := [], state := none } }

def appSelectNoFile : App :=
  { appFilesEmpty with
    app_mode := .Select,
    select_list := { items := ["Delete", "Rename", "Bookmark"], state := some 0 } }

def appSelectNoAction : App :=
  { appFilesOne with
    app_mode := .Select,
    select_list := { items := ["Delete", "Rename", "Bookmark"], state := none } }

def fsReadFail : Fs :=
  { fsHome with failRead := ["/home"] }

/-! ## Helper lemmas -/

theorem find?_filter_none {α : Type} (l : List α) (keep q : α → Bool)
    (h : ∀ x, keep x = true → q x = false) :
    (l.filter keep).find? q = none := by
  rw [List.find?_eq_none]
  intro x hx
  have hm := List.mem_filter.mp hx
  simp [h x hm.2]

theorem append_ne_empty_left (t s : String) (h : t.length ≠ 0) :
    (t ++ s) ≠ "" := by
  intro he
  have hl := congrArg String.length he
  rw [String.length_append] at hl
  have h0 : ("" : String).length = 0 := rfl
  rw [h0] at hl
  omega

theorem clampSelection_valid (items : List String) (s : Option Nat) :
    clampSelection items s = none ∨
      ∃ i, clampSelection items s = some i ∧ i < items.length := by
  unfold clampSelection
  by_cases he : items.isEmpty
  · left; simp [he]
  · cases s with
    | none => left; simp [he]
    | some i =>
      right
      refine ⟨min i (items.length - 1), by simp [he], ?_⟩
      have hlen : 0 < items.length := by
        cases items with
        | nil => simp at he
        | cons a l => simp
      have hmin : min i (items.length - 1) ≤ items.length - 1 := Nat.min_le_right _ _
      omega

/-! ## Claims -/

/-- C3: the claim states that `enter_char(c)` inserts at the cursor and
advances the cursor by one, so typing into an empty buffer yields the
characters in the order typed.  The source never advances `input_index`,
so from the default buffer (cursor 0) every character is inserted at the
front: typing `a` then `b` produces the value "ba" with the cursor still
at 0; the intended "ab" (per section 8, scenario 2 of the spec) is not
produced.  This theorem evaluates the embedded source at that failing
input. -/
theorem enter_char_keeps_cursor_at_zero :
    ((UserInput.default.enter_char 'a').enter_char 'b').get_input_value = "ba" ∧
    ((UserInput.default.enter_char 'a').enter_char 'b').input_index = 0 ∧
    "ba" ≠ "ab" := by
  refine ⟨rfl, rfl, by decide⟩

/-- C4 counterexample: in the state reached by seeding the buffer with
"ab" (cursor 2) and typing `c` (value "abc", cursor still 2), the
source's `delete_char` removes the last character and yields "ab",
while removing the character immediately before the cursor (the spec's
words, `delete_char_spec`) yields "ac". -/
theorem delete_char_not_before_cursor :
    (((UserInput.new "ab").enter_char 'c').delete_char).get_input_value = "ab" ∧
    (((UserInput.new "ab").enter_char 'c').delete_char_spec).get_input_value = "ac" ∧
    ((UserInput.new "ab").enter_char 'c').input_index ≠ 0 ∧
    ("ab" : String) ≠ "ac" := by
  refine ⟨rfl, rfl, by decide, by decide⟩

/-- C4 amended: `delete_char` removes the LAST character of the value
when the cursor is not at position 0 (leaving the cursor unchanged) and
is a no-op when the cursor is at 0; the removed character coincides with
the character immediately before the cursor exactly when the cursor sits
at the end of the value.  No operation raises: the embedding is total
and popping an empty value is a no-op. -/
theorem delete_char_amended :
    (∀ u : UserInput, u.input_index ≠ 0 →
      u.delete_char.input_value = u.input_value.dropLast ∧
      u.delete_char.input_index = u.input_index) ∧
    (∀ u : UserInput, u.input_index = 0 → u.delete_char = u) ∧
    (∀ u : UserInput, u.input_index = u.input_value.length →
      u.delete_char.input_value = u.delete_char_spec.input_value) := by
  refine ⟨?_, ?_, ?_⟩
  · intro u h
    simp [UserInput.delete_char, h]
  · intro u h
    simp [UserInput.delete_char, h]
  · intro u h
    by_cases h0 : u.input_index = 0
    · simp [UserInput.delete_char, UserInput.delete_char_spec, h0]
    · simp only [UserInput.delete_char, UserInput.delete_char_spec, if_pos h0]
      rw [List.dropLast_eq_take, h, List.drop_length, List.append_nil]

/-- C4 witness: the amended statement applied at concrete buffers. -/
theorem delete_char_amended_witness :
    ((UserInput.mk ['a', 'b'] 2).delete_char.input_value =
        (UserInput.mk ['a', 'b'] 2).input_value.dropLast ∧
      (UserInput.mk ['a', 'b'] 2).delete_char.input_index =
        (UserInput.mk ['a', 'b'] 2).input_index) ∧
    (UserInput.mk ['a'] 0).delete_char = UserInput.mk ['a'] 0 ∧
    (UserInput.mk ['a', 'b'] 2).delete_char.input_value =
      (UserInput.mk ['a', 'b'] 2).delete_char_spec.input_value :=
  ⟨delete_char_amended.1 (UserInput.mk ['a', 'b'] 2) (by decide),
   delete_char_amended.2.1 (UserInput.mk ['a'] 0) (by decide),
   delete_char_amended.2.2 (UserInput.mk ['a', 'b'] 2) (by decide)⟩

/-- C6: for a child name as produced by a directory listing (non-empty,
no path separators), `next_path name` followed by `previous_path`
restores the path that held before the descent; and at the root,
`previous_path` is idempotent. -/
theorem descend_ascend_roundtrip (fm : FileManager) (name : String)
    (_h1 : name ≠ "") (_h2 : name.data.contains '/' = false) :
    (fm.next_path name).previous_path = fm ∧
    (fm.curr_path = [] →
      fm.previous_path.previous_path = fm.previous_path) := by
  constructor
  · cases fm with
    | mk p =>
      simp [FileManager.next_path, FileManager.previous_path, List.dropLast_concat]
  · intro hroot
    simp [FileManager.previous_path, hroot]

/-- C6 witness: the roundtrip at the root with the name "a". -/
theorem descend_ascend_roundtrip_witness :
    ((FileManager.mk []).next_path "a").previous_path = FileManager.mk [] ∧
    (FileManager.mk []).previous_path.previous_path =
      (FileManager.mk []).previous_path :=
  ⟨(descend_ascend_roundtrip (FileManager.mk []) "a" (by decide) (by decide)).1,
   (descend_ascend_roundtrip (FileManager.mk []) "a" (by decide) (by decide)).2 rfl⟩

def appFilesOneDown : App :=
  { appFilesOne with file_list := { items := ["a"], state := some 1 } }

def fsSentinel : Fs :=
  { entries := [("/", .Directory), ("/home", .Directory),
      ("/home/No such directory", .File)],
    failRename := [], failDelete := [], failCreate := [], failRead := [] }

/-- C7 counterexample: from a clamped, valid state (one item, highlight
at index 0) a single select-next leaves the highlight at index 1, which
is not a valid index into the one-element list; the selection state is
only pulled back in range by the next draw.  The claim's invariant
therefore does not hold after every operation. -/
theorem select_next_overruns_list :
    App.handle_key_event fsHome appFilesOne .down = some (appFilesOneDown, fsHome) ∧
    appFilesOneDown.file_list.state = some 1 ∧
    appFilesOneDown.file_list.items.length = 1 ∧
    ¬ (1 < 1) := by
  refine ⟨by decide, rfl, rfl, by omega⟩

/-- C7 amended: the highlight invariant (None or a valid index, clamped
to the last index on shrink, None on empty) holds at every draw: the
rendering clamp re-establishes it for the file list in every mode and
for the action list in the modes where that list is rendered.  Between a
select operation and the next draw the index may exceed the bounds (see
the counterexample). -/
theorem highlight_valid_after_draw (app : App) :
    (app.drawClamp.file_list.state = none ∨
      ∃ i, app.drawClamp.file_list.state = some i ∧
        i < app.drawClamp.file_list.items.length) ∧
    (app.app_mode = .Select ∨ app.app_mode = .Rename ∨ app.app_mode = .Delete →
      app.drawClamp.select_list.state = none ∨
        ∃ i, app.drawClamp.select_list.state = some i ∧
          i < app.drawClamp.select_list.items.length) := by
  constructor
  · have h := clampSelection_valid app.file_list.items app.file_list.state
    simpa [App.drawClamp] using h
  · intro hm
    have h := clampSelection_valid app.select_list.items app.select_list.state
    simpa [App.drawClamp, if_pos hm] using h

/-- C7 witness: the amended statement at a concrete Select-mode state. -/
theorem highlight_valid_after_draw_witness :
    (appSelectNoFile.drawClamp.file_list.state = none ∨
      ∃ i, appSelectNoFile.drawClamp.file_list.state = some i ∧
        i < appSelectNoFile.drawClamp.file_list.items.length) ∧
    (appSelectNoFile.drawClamp.select_list.state = none ∨
      ∃ i, appSelectNoFile.drawClamp.select_list.state = some i ∧
        i < appSelectNoFile.drawClamp.select_list.items.length) :=
  ⟨(highlight_valid_after_draw appSelectNoFile).1,
   (highlight_valid_after_draw appSelectNoFile).2 (Or.inl rfl)⟩

/-- C8: operations referencing an absent highlight are no-ops: `m` in
Files mode with no highlighted file leaves the whole state (and the
filesystem) unchanged and sets no error, and the Select+Enter dispatch
is ignored when the file highlight or the action highlight is absent. -/
theorem absent_highlight_noop (fs : Fs) (app : App) :
    (app.app_mode = .Files → app.file_list.state = none →
      App.handle_key_event fs app (.char 'm') = some (app, fs)) ∧
    (app.app_mode = .Select → app.file_list.state = none →
      App.handle_key_event fs app .enter = some (app, fs)) ∧
    (app.app_mode = .Select → app.select_list.state = none →
      ∀ i file_name, app.file_list.state = some i →
        app.file_list.items[i]? = some file_name →
        App.handle_key_event fs app .enter = some (app, fs)) := by
  refine ⟨?_, ?_, ?_⟩
  · intro hm hs
    simp [App.handle_key_event, hm, App.filesKey, App.move_into, hs]
  · intro hm hs
    simp [App.handle_key_event, hm, App.selectKey, App.select_menu, hs]
  · intro hm hs i file_name hsel hitem
    simp [App.handle_key_event, hm, App.selectKey, App.select_menu, hsel, hitem, hs]

/-- C8 witness: the three no-ops at concrete states. -/
theorem absent_highlight_noop_witness :
    App.handle_key_event fsHome appFilesEmpty (.char 'm') = some (appFilesEmpty, fsHome) ∧
    App.handle_key_event fsHome appSelectNoFile .enter = some (appSelectNoFile, fsHome) ∧
    App.handle_key_event fsHome appSelectNoAction .enter = some (appSelectNoAction, fsHome) :=
  ⟨(absent_highlight_noop fsHome appFilesEmpty).1 rfl rfl,
   (absent_highlight_noop fsHome appSelectNoFile).2.1 rfl rfl,
   (absent_highlight_noop fsHome appSelectNoAction).2.2 rfl rfl 0 "a" rfl rfl⟩

/-- C9: `q` always transitions to Exit and `?` transitions to Help from
every non-Exit state, both taking precedence over mode-specific
handling; any other printable character in Rename mode is inserted into
the input buffer and the mode stays Rename. -/
theorem rename_insert_and_global_keys (fs : Fs) (app : App) (c : Char) :
    App.handle_key_event fs app (.char 'q') = some ({ app with app_mode := .Exit }, fs) ∧
    (app.app_mode ≠ .Exit →
      App.handle_key_event fs app (.char '?') = some ({ app with app_mode := .Help }, fs)) ∧
    (app.app_mode = .Rename → c ≠ 'q' → c ≠ '?' →
      App.handle_key_event fs app (.char c) =
        some ({ app with user_input := app.user_input.enter_char c }, fs) ∧
      ({ app with user_input := app.user_input.enter_char c } : App).app_mode = .Rename) := by
  refine ⟨?_, ?_, ?_⟩
  · simp [App.handle_key_event]
  · intro _
    simp [App.handle_key_event]
  · intro hm hq hh
    constructor
    · simp [App.handle_key_event, hm, App.renameKey, hq, hh]
    · simpa using hm

/-- C9 witness: the global keys and a Rename-mode insertion at a
concrete state. -/
theorem rename_insert_and_global_keys_witness :
    App.handle_key_event fsHome appRename (.char 'q') =
      some ({ appRename with app_mode := .Exit }, fsHome) ∧
    App.handle_key_event fsHome appRename (.char '?') =
      some ({ appRename with app_mode := .Help }, fsHome) ∧
    App.handle_key_event fsHome appRename (.char 'x') =
      some ({ appRename with user_input := appRename.user_input.enter_char 'x' }, fsHome) :=
  ⟨(rename_insert_and_global_keys fsHome appRename 'x').1,
   (rename_insert_and_global_keys fsHome appRename 'x').2.1 (by decide),
   ((rename_insert_and_global_keys fsHome appRename 'x').2.2 rfl (by decide) (by decide)).1⟩

/-- C10: whenever listing the current directory fails, the file list is
replaced by the single literal entry "No such directory" and no error
message is set (the startup path leaves it empty, the refresh path
leaves it untouched); the state is identical to the one produced by a
real directory whose listing is exactly that entry, and the sentinel can
be highlighted and operated on like a file (descending into it via `m`
treats it as an ordinary entry name). -/
theorem listing_failure_sentinel (fs fs2 : Fs) (app : App) (sd : List OsSeg)
    (e e2 : MyError) :
    (app.dir.dir_contents fs = .error e →
      (App.refreshItems fs app).file_list.items = ["No such directory"] ∧
      (App.refreshItems fs app).error_msg = app.error_msg ∧
      (app.dir.dir_contents fs2 = .ok ["No such directory"] →
        App.refreshItems fs app = App.refreshItems fs2 app) ∧
      (app.file_list.state = some 0 →
        App.move_into (App.refreshItems fs app) =
          some { App.refreshItems fs app with
                 dir := app.dir.next_path "No such directory" })) ∧
    ((FileManager.mk sd).dir_contents fs = .error e2 →
      (App.defaultApp fs sd).file_list.items = ["No such directory"] ∧
      (App.defaultApp fs sd).error_msg = "") := by
  constructor
  · intro herr
    refine ⟨?_, rfl, ?_, ?_⟩
    · simp [App.refreshItems, herr]
    · intro hok
      simp [App.refreshItems, herr, hok]
    · intro hsel
      simp [App.move_into, App.refreshItems, herr, hsel]
  · intro herr
    constructor
    · simp [App.defaultApp, herr]
    · rfl

/-- C10 witness: an unreadable directory at a concrete state, compared
with a real directory containing one entry named like the sentinel. -/
theorem listing_failure_sentinel_witness :
    ((App.refreshItems fsReadFail appFilesOne).file_list.items = ["No such directory"] ∧
      (App.refreshItems fsReadFail appFilesOne).error_msg = appFilesOne.error_msg ∧
      (App.refreshItems fsReadFail appFilesOne = App.refreshItems fsSentinel appFilesOne) ∧
      App.move_into (App.refreshItems fsReadFail appFilesOne) =
        some { App.refreshItems fsReadFail appFilesOne with
               dir := appFilesOne.dir.next_path "No such directory" }) ∧
    ((App.defaultApp fsReadFail [{ text := "home", valid := true }]).file_list.items =
        ["No such directory"] ∧
      (App.defaultApp fsReadFail [{ text := "home", valid := true }]).error_msg = "") := by
  have h := listing_failure_sentinel fsReadFail fsSentinel appFilesOne
    [{ text := "home", valid := true }]
    (.FileError "Couldn't fetch directory entries")
    (.FileError "Couldn't fetch directory entries")
  have h1 := h.1 rfl
  have h2 := h.2 rfl
  exact ⟨⟨h1.1, h1.2.1, h1.2.2.1 rfl, h1.2.2.2 rfl⟩, h2.1, h2.2⟩

theorem deleteOp_removes (fs : Fs) (p : String) (kind : FileTypeEnum)
    (hfail : fs.failDelete.contains p = false) (hex : fs.pathExists p = true) :
    ∃ fs', fs.deleteOp p kind = .ok fs' ∧ fs'.pathExists p = false := by
  have hmem : ¬ p ∈ fs.failDelete := by simpa using hfail
  cases kind with
  | Directory =>
    refine ⟨{ fs with entries := fs.entries.filter (fun e =>
        !(e.1 == p || (p ++ "/").data.isPrefixOf e.1.data)) }, ?_, ?_⟩
    · simp [Fs.deleteOp, hfail, hmem, hex]
    · have hnone := find?_filter_none fs.entries
        (fun e => !(e.1 == p || (p ++ "/").data.isPrefixOf e.1.data))
        (fun e => e.1 == p)
        (by
          intro x hx
          have hx2 : (x.1 == p || (p ++ "/").data.isPrefixOf x.1.data) = false := by
            simpa using hx
          exact (Bool.or_eq_false_iff.mp hx2).1)
      simp only [Fs.pathExists, Fs.lookupKind]
      rw [hnone]
      rfl
  | File =>
    refine ⟨{ fs with entries := fs.entries.filter (fun e => !(e.1 == p)) }, ?_, ?_⟩
    · simp [Fs.deleteOp, hfail, hmem, hex]
    · have hnone := find?_filter_none fs.entries
        (fun e => !(e.1 == p)) (fun e => e.1 == p)
        (by intro x hx; simpa using hx)
      simp only [Fs.pathExists, Fs.lookupKind]
      rw [hnone]
      rfl
  | Symlink =>
    refine ⟨{ fs with entries := fs.entries.filter (fun e => !(e.1 == p)) }, ?_, ?_⟩
    · simp [Fs.deleteOp, hfail, hmem, hex]
    · have hnone := find?_filter_none fs.entries
        (fun e => !(e.1 == p)) (fun e => e.1 == p)
        (by intro x hx; simpa using hx)
      simp only [Fs.pathExists, Fs.lookupKind]
      rw [hnone]
      rfl

/-- C1: in Delete mode, on Enter with a file validly highlighted, the
mode returns to Files in every case (also on any failure of the path
resolution, the metadata lookup or the removal itself); and when the
current path resolves, the highlighted file exists on disk and its
removal does not fail, the file is deleted if and only if the
confirmation buffer equals exactly "y" — when the buffer is not "y"
nothing at all is touched. -/
theorem delete_enter_confirmation
    (fs : Fs) (app : App) (i : Nat) (file_name : String) (kind : FileTypeEnum)
    (hmode : app.app_mode = .Delete)
    (hsel : app.file_list.state = some i)
    (hitem : app.file_list.items[i]? = some file_name) :
    (∃ app' fs', App.handle_key_event fs app .enter = some (app', fs') ∧
      app'.app_mode = .Files) ∧
    (app.dir.curr_path.all (fun s => s.valid) = true →
      fs.lookupKind
          (renderPath (app.dir.curr_path ++ [{ text := file_name, valid := true }])) =
        some kind →
      fs.failDelete.contains
          (renderPath (app.dir.curr_path ++ [{ text := file_name, valid := true }])) =
        false →
      ∃ app' fs', App.handle_key_event fs app .enter = some (app', fs') ∧
        app'.app_mode = .Files ∧
        (fs'.pathExists
            (renderPath (app.dir.curr_path ++ [{ text := file_name, valid := true }])) =
            false ↔
          app.user_input.get_input_value = "y") ∧
        (app.user_input.get_input_value ≠ "y" →
          app' = { app with app_mode := .Files } ∧ fs' = fs)) := by
  constructor
  · by_cases hy : app.user_input.get_input_value = "y"
    · cases hgf : app.dir.get_file_path file_name with
      | error e =>
        refine ⟨{ app with error_msg := e.toString, app_mode := .Files }, fs, ?_, rfl⟩
        simp [App.handle_key_event, hmode, App.deleteKey, hy, App.delete_file,
          hsel, hitem, hgf]
      | ok fp =>
        cases hmd : app.dir.get_metadata fs file_name with
        | none =>
          refine ⟨{ app with app_mode := .Files }, fs, ?_, rfl⟩
          simp [App.handle_key_event, hmode, App.deleteKey, hy, App.delete_file,
            hsel, hitem, hgf, hmd]
        | some md =>
          cases hd : app.dir.delete fs fp md.filetype with
          | mk r fs' =>
            cases r with
            | ok u =>
              refine ⟨{ app with app_mode := .Files }, fs', ?_, rfl⟩
              simp [App.handle_key_event, hmode, App.deleteKey, hy, App.delete_file,
                hsel, hitem, hgf, hmd, hd]
            | error e =>
              refine ⟨{ app with error_msg := e.toString, app_mode := .Files }, fs',
                ?_, rfl⟩
              simp [App.handle_key_event, hmode, App.deleteKey, hy, App.delete_file,
                hsel, hitem, hgf, hmd, hd]
    · refine ⟨{ app with app_mode := .Files }, fs, ?_, rfl⟩
      simp [App.handle_key_event, hmode, App.deleteKey, hy]
  · intro hvalid hkind hfail
    by_cases hy : app.user_input.get_input_value = "y"
    · have hex : fs.pathExists
          (renderPath (app.dir.curr_path ++ [{ text := file_name, valid := true }])) =
          true := by
        simp [Fs.pathExists, hkind]
      obtain ⟨fs', hdel, hnotex⟩ := deleteOp_removes fs
        (renderPath (app.dir.curr_path ++ [{ text := file_name, valid := true }]))
        kind hfail hex
      refine ⟨{ app with app_mode := .Files }, fs', ?_, rfl, ?_, fun hne => absurd hy hne⟩
      · simp [App.handle_key_event, hmode, App.deleteKey, hy, App.delete_file, hsel,
          hitem, FileManager.get_file_path, hvalid, FileManager.get_metadata, hkind,
          FileManager.delete, hdel]
      · simp [hnotex, hy]
    · refine ⟨{ app with app_mode := .Files }, fs, ?_, rfl, ?_, fun _ => ⟨rfl, rfl⟩⟩
      · simp [App.handle_key_event, hmode, App.deleteKey, hy]
      · simp [Fs.pathExists, hkind, hy]

/-- C1 witness: confirming the deletion of "a.txt" with buffer "y"
at a concrete state. -/
theorem delete_enter_confirmation_witness :
    (∃ app' fs', App.handle_key_event fsHome appDelete .enter = some (app', fs') ∧
      app'.app_mode = .Files) ∧
    (∃ app' fs', App.handle_key_event fsHome appDelete .enter = some (app', fs') ∧
      app'.app_mode = .Files ∧
      (fs'.pathExists
          (renderPath (appDelete.dir.curr_path ++ [{ text := "a.txt", valid := true }])) =
          false ↔
        appDelete.user_input.get_input_value = "y") ∧
      (appDelete.user_input.get_input_value ≠ "y" →
        app' = { appDelete with app_mode := .Files } ∧ fs' = fsHome)) :=
  ⟨(delete_enter_confirmation fsHome appDelete 0 "a.txt" .File rfl rfl rfl).1,
   (delete_enter_confirmation fsHome appDelete 0 "a.txt" .File rfl rfl rfl).2
     rfl (by decide) (by decide)⟩

/-- C2: when the filesystem rename fails, the error message is set to
the non-empty string "File Error: Insufficient privilages: {cause}"
(which contains the underlying cause as a suffix), the mode still
returns to Files, the filesystem is untouched, and the file list,
navigation and selection state are all unchanged from before the
attempt — in particular the end-of-turn listing refresh yields the same
items as it would have before the attempt.  The controller returns a
defined state (no panic) on this error path. -/
theorem rename_failure_reports_and_preserves
    (fs : Fs) (app : App) (i : Nat) (file_name : String) (tr : String × String × String)
    (hmode : app.app_mode = .Rename)
    (hsel : app.file_list.state = some i)
    (hitem : app.file_list.items[i]? = some file_name)
    (hvalid : app.dir.curr_path.all (fun s => s.valid) = true)
    (hfind : fs.failRename.find? (fun t =>
        t.1 == renderPath (app.dir.curr_path ++ [{ text := file_name, valid := true }]) &&
        t.2.1 == renderPath (app.dir.curr_path ++
          [{ text := app.user_input.get_input_value, valid := true }])) = some tr) :
    ∃ app', App.handle_key_event fs app .enter = some (app', fs) ∧
      app'.app_mode = .Files ∧
      app'.error_msg = "File Error: " ++ ("Insufficient privilages: " ++ tr.2.2) ∧
      app'.error_msg ≠ "" ∧
      (∃ s, app'.error_msg = s ++ tr.2.2) ∧
      app'.file_list = app.file_list ∧
      app'.dir = app.dir ∧
      app'.select_list = app.select_list ∧
      app'.bookmarked = app.bookmarked ∧
      (App.refreshItems fs app').file_list.items =
        (App.refreshItems fs app).file_list.items := by
  refine ⟨{ app with
      error_msg := "File Error: " ++ ("Insufficient privilages: " ++ tr.2.2),
      app_mode := .Files },
    ?_, rfl, rfl, ?_, ?_, rfl, rfl, rfl, rfl, ?_⟩
  · simp [App.handle_key_event, hmode, App.renameKey, App.rename_file, hsel, hitem,
      FileManager.get_file_path, hvalid, FileManager.rename, Fs.renameOp, hfind,
      MyError.toString]
  · exact append_ne_empty_left _ _ (by decide)
  · exact ⟨"File Error: " ++ "Insufficient privilages: ", by
      rw [String.append_assoc]⟩
  · simp [App.refreshItems]

/-- C2 witness: a permission-denied rename of "a.txt" to "z.txt" at a
concrete state. -/
theorem rename_failure_reports_and_preserves_witness :
    ∃ app', App.handle_key_event fsRenameFail appRename .enter = some (app', fsRenameFail) ∧
      app'.app_mode = .Files ∧
      app'.error_msg = "File Error: " ++ ("Insufficient privilages: " ++ "permission denied") ∧
      app'.error_msg ≠ "" ∧
      (∃ s, app'.error_msg = s ++ "permission denied") ∧
      app'.file_list = appRename.file_list ∧
      app'.dir = appRename.dir ∧
      app'.select_list = appRename.select_list ∧
      app'.bookmarked = appRename.bookmarked ∧
      (App.refreshItems fsRenameFail app').file_list.items =
        (App.refreshItems fsRenameFail appRename).file_list.items :=
  rename_failure_reports_and_preserves fsRenameFail appRename 0 "a.txt"
    ("/home/a.txt", "/home/z.txt", "permission denied")
    rfl rfl rfl rfl (by decide)

/-- C5 counterexample: in Files mode with a bookmark set and a current
path that fails to resolve (a non-UTF-8 segment), pressing `b` takes the
early error return of `move_bookmarked` before the line that clears the
bookmark: the slot keeps its value, refuting the claim that clearing
happens after every attempt including destination-resolution failure. -/
theorem bookmark_kept_on_resolve_failure :
    App.handle_key_event fsHome appBookmarkBad (.char 'b') =
      some ({ appBookmarkBad with error_msg := "File Error: Incorrect path" }, fsHome) ∧
    ({ appBookmarkBad with error_msg := "File Error: Incorrect path" } : App).bookmarked =
      { full_path := "/old/x", file_name := "x" } ∧
    ({ full_path := "/old/x", file_name := "x" } : Bookmarked) ≠ Bookmarked.default := by
  refine ⟨by decide, rfl, by decide⟩

/-- C5 amended: the bookmark slot is cleared exactly once, immediately
after every bookmarked-move attempt that reaches the rename call —
i.e. whenever the destination path resolves, regardless of the success
or failure of the move itself; when resolving the destination path
fails, the error message is set and the bookmark is retained. -/
theorem bookmark_cleared_when_resolvable (fs : Fs) (app : App)
    (hmode : app.app_mode = .Files) :
    (app.dir.curr_path.all (fun s => s.valid) = true →
      ∃ app' fs', App.handle_key_event fs app (.char 'b') = some (app', fs') ∧
        app'.bookmarked = Bookmarked.default) ∧
    (app.dir.curr_path.all (fun s => s.valid) = false →
      ∃ app', App.handle_key_event fs app (.char 'b') = some (app', fs) ∧
        app'.bookmarked = app.bookmarked ∧
        app'.error_msg = "File Error: Incorrect path") := by
  constructor
  · intro hvalid
    cases hr : fs.renameOp app.bookmarked.full_path
        (renderPath (app.dir.curr_path ++
          [{ text := app.bookmarked.file_name, valid := true }])) with
    | error e =>
      refine ⟨{ app with
          error_msg := "File Error: " ++ ("Insufficient privilages: " ++ e),
          bookmarked := Bookmarked.default }, fs, ?_, rfl⟩
      simp [App.handle_key_event, hmode, App.filesKey, App.move_bookmarked,
        FileManager.get_file_path, hvalid, FileManager.rename, hr, MyError.toString]
    | ok fs2 =>
      refine ⟨{ app with bookmarked := Bookmarked.default }, fs2, ?_, rfl⟩
      simp [App.handle_key_event, hmode, App.filesKey, App.move_bookmarked,
        FileManager.get_file_path, hvalid, FileManager.rename, hr]
  · intro hinvalid
    refine ⟨{ app with error_msg := "File Error: Incorrect path" }, ?_, rfl, rfl⟩
    simp [App.handle_key_event, hmode, App.filesKey, App.move_bookmarked,
      FileManager.get_file_path, hinvalid, MyError.toString]

/-- C5 witness: the amended statement at two concrete states, one whose
path resolves (the bookmark is cleared even though the move itself
fails) and one whose path does not (the bookmark is retained). -/
theorem bookmark_cleared_when_resolvable_witness :
    (∃ app' fs', App.handle_key_event fsHome appBookmarkOk (.char 'b') = some (app', fs') ∧
      app'.bookmarked = Bookmarked.default) ∧
    (∃ app', App.handle_key_event fsHome appBookmarkBad (.char 'b') = some (app', fsHome) ∧
      app'.bookmarked = appBookmarkBad.bookmarked ∧
      app'.error_msg = "File Error: Incorrect path") :=
  ⟨(bookmark_cleared_when_resolvable fsHome appBookmarkOk rfl).1 rfl,
   (bookmark_cleared_when_resolvable fsHome appBookmarkBad rfl).2 rfl⟩

end Dirman
